import Mathlib

/-!
# Verification of the skillpath-assessment autograder core

Shallow embedding of `src/autograder/checks.py` and
`src/autograder/run_grader.py`.

Conventions of the embedding:
* Source texts and file contents are `List Char`.
* Python `int` is `ℤ`, JSON numbers are `ℚ` (exact rationals).
* The filesystem visible to the grader is an explicit `FS` record holding
  exactly the files the grader ever consults.
* Child-process behaviour (exit codes, captured output, timeouts and the
  artifacts the graded program writes) is an oracle supplied in the
  environment `Env`; each invocation site of `run_cmd` has its own oracle
  field, matching the fact that every external invocation is attempted
  exactly once.
* A Python exception escaping `main` is modelled as `Except.error` of a
  `Crash`; exceptions that the code catches are handled inside the
  corresponding definitions, exactly where the `try/except` blocks sit.
-/

namespace Autograder

/-! ## String utilities (Python `in`, `str.strip`, and the regex searches) -/

/-- The ASCII characters matched by Python's `\s` (and stripped by
`str.strip()`): space, tab, newline, carriage return, vertical tab, form
feed.  The grader only ever inspects ASCII program text, so the extra
Unicode whitespace accepted by Python is irrelevant here. -/
def isPyWS (c : Char) : Bool :=
  c = ' ' || c = '\t' || c = '\n' || c = '\r' || c = '\x0b' || c = '\x0c'

/-- Test whether `l` begins with the character list `pat`. -/
def startsWithL : List Char → List Char → Bool
  | [], _ => true
  | _ :: _, [] => false
  | p :: ps, c :: cs => p = c && startsWithL ps cs

/-- Python's substring containment `pat in l`. -/
def containsL (pat : List Char) : List Char → Bool
  | [] => startsWithL pat []
  | l@(_ :: rest) => startsWithL pat l || containsL pat rest

/-- Python `str.strip()` restricted to ASCII whitespace. -/
def stripL (l : List Char) : List Char :=
  ((l.dropWhile isPyWS).reverse.dropWhile isPyWS).reverse

/-- The first line of a file as `readline().strip()` produces it: the
characters before the first newline, stripped. -/
def firstLine (content : List Char) : List Char :=
  stripL (content.takeWhile (fun c => c ≠ '\n'))

/-- Holds when `p` matches at some suffix of `l` — the search semantics of
`re.search`, which tries every start position. -/
def anyPos (p : List Char → Bool) : List Char → Bool
  | [] => p []
  | l@(_ :: rest) => p l || anyPos p rest

/-! ## Binary64 arithmetic

The grader leans on Python floats in two places: the tolerance comparison
`abs(float(a) - float(b)) <= tol` of `approx`, and the pass threshold
`int(0.7 * total)` of the orchestrator.  Both are embedded exactly: a
finite IEEE-754 binary64 value is a rational with a 53-bit significand,
and rounding to nearest with ties to even is reproduced over `ℕ`/`ℤ`/`ℚ`.
Exponent overflow and subnormals are not modelled (the grader's numbers
are many orders of magnitude inside the representable range). -/

/-- Number of binary digits of `n` (0 for 0), computed with explicit fuel so
that it reduces by kernel evaluation. -/
def bitLenAux : ℕ → ℕ → ℕ
  | 0, _ => 0
  | fuel + 1, m => if m = 0 then 0 else bitLenAux fuel (m / 2) + 1

def bitLen (n : ℕ) : ℕ := bitLenAux n n

/-- Round the ratio `N / D` (with `D > 0`) to the nearest integer, ties to
the even quotient. -/
def rne (N D : ℕ) : ℕ :=
  let q := N / D
  let r := N % D
  if D < 2 * r ∨ (2 * r = D ∧ q % 2 = 1) then q + 1 else q

/-- Computes `⌊log2 (num / den)⌋` for positive `num`, `den`: the bit
lengths bracket the ratio within a factor-two window, and one comparison
settles which power of two it reaches. -/
def floorLog2 (num den : ℕ) : ℤ :=
  let t : ℤ := (bitLen num : ℤ) - (bitLen den : ℤ)
  if 0 ≤ t then (if den * 2 ^ t.toNat ≤ num then t else t - 1)
  else (if den ≤ num * 2 ^ (-t).toNat then t else t - 1)

/-- Rounds a rational to the nearest IEEE-754 binary64 value (ties to even
significand, exponent unbounded): the magnitude is scaled so that a 53-bit
significand remains, the significand is rounded with `rne`, and the sign is
restored.  `fl` is the identity on every representable value, so it is both
the value of a Python float literal and the result of a correctly rounded
float operation applied to exact operands. -/
def fl (q : ℚ) : ℚ :=
  if q.num = 0 then 0
  else
    let n := q.num.natAbs
    let d := q.den
    let L := floorLog2 n d
    let mag : ℚ :=
      if 52 ≤ L then
        ((rne n (d * 2 ^ (L - 52).toNat) * 2 ^ (L - 52).toNat : ℕ) : ℚ)
      else
        ((rne (n * 2 ^ (52 - L).toNat) d : ℕ) : ℚ) / ((2 ^ (52 - L).toNat : ℕ) : ℚ)
    if 0 ≤ q.num then mag else -mag

/-! ## Static checks (`static_checks_python`, `static_checks_java`) -/

/-- One position's match of `def\s+(aggregate|filter_high_value|parse_args)\(`:
the literal `def`, at least one whitespace character, then one of the three
required function names followed by an opening parenthesis. -/
def matchDefAt (l : List Char) : Bool :=
  startsWithL ("def".toList) l &&
    (match l.drop 3 with
     | [] => false
     | c :: rest =>
       isPyWS c &&
         (let r := rest.dropWhile isPyWS
          startsWithL ("aggregate(".toList) r ||
            startsWithL ("filter_high_value(".toList) r ||
            startsWithL ("parse_args(".toList) r))

/-- One position's match of `for\s|while\s|if\s`: a keyword immediately
followed by a whitespace character. -/
def matchCFAt (l : List Char) : Bool :=
  (startsWithL ("for".toList) l && (match l.drop 3 with
    | c :: _ => isPyWS c
    | [] => false)) ||
  (startsWithL ("while".toList) l && (match l.drop 5 with
    | c :: _ => isPyWS c
    | [] => false)) ||
  (startsWithL ("if".toList) l && (match l.drop 2 with
    | c :: _ => isPyWS c
    | [] => false))

/-- Result record of a static check: the three named boolean predicates. -/
structure StaticChecks where
  functions : Bool
  control_flow : Bool
  oop : Bool
deriving DecidableEq, Repr

/-- Errors raised by `run_cmd` (the Python `CheckError`).  The human-readable
message text carried by the Python exception is elided; the constructor
records which situation raised it. -/
inductive CheckErr where
  | timedOut
  | entryMissing (path : String)
deriving DecidableEq, Repr

/-- An exception escaping `main` (the grader crashing with a traceback). -/
inductive Crash where
  | checkError (e : CheckErr)
  | reError
deriving DecidableEq, Repr

/-- The files of the working directory that the grader consults, plus the
two directory-listing facts it queries.  `none` means the file is absent. -/
structure Summary where
  total_revenue : Option ℚ
  average_order_value : Option ℚ
  orders_per_category : Option (List (String × ℤ))
  top_category_by_revenue : Option String
deriving DecidableEq, Repr

/-- Contents of `summary.json` as the validator sees them: either text that
fails to parse as JSON, or a parsed record.  The four optional fields model
presence/absence of the four keys the validator looks up; category counts
are modelled as an association list of integer counts. -/
inductive SummaryFile where
  | invalid
  | parsed (s : Summary)
deriving DecidableEq, Repr

structure FS where
  processOrdersPy : Option (List Char)
  modelsPy : Option (List Char)
  orderProcessorJava : Option (List Char)
  orderJava : Option (List Char)
  summaryJson : Option SummaryFile
  highValueCsv : Option (List Char)
  /-- Result of `exists('tests')`. -/
  testsDirExists : Bool
  /-- some directory entry ends with `test.java` (case-insensitively) -/
  javaTestFilesPresent : Bool
deriving DecidableEq, Repr

/-- Embedding of `static_checks_python`.  All three flags start `False`;
each `try` block only flips its flags when its file is present
(`FileNotFoundError` is caught and ignored). -/
def static_checks_python (fs : FS) : StaticChecks :=
  let fcf : Bool × Bool :=
    match fs.processOrdersPy with
    | some s => (anyPos matchDefAt s, anyPos matchCFAt s)
    | none => (false, false)
  let oop : Bool :=
    match fs.modelsPy with
    | some m => containsL ("class Order".toList) m && containsL ("def total".toList) m
    | none => false
  ⟨fcf.1, fcf.2, oop⟩

/-- Embedding of `static_checks_java`.  The record starts with
`functions := true` unconditionally (the Python dict literal is
`{'functions': True, ...}` and no code ever updates that key).  The
`control_flow` branch calls `re.search` with the raw-string pattern
`r"for\\s*\\(|while\\s*\\(|if\\s*\\("`; in a raw string each `\\` stays two
characters, so the regex engine reads `\\` as an escaped literal backslash
followed by a bare `(` — three opened and never closed groups — and raises
`re.error` ("missing ), unbalanced parenthesis") whenever
`OrderProcessor.java` exists.  Only `FileNotFoundError` is caught, so the
exception escapes; when the file is absent the `FileNotFoundError` is
caught before the regex is ever evaluated and `control_flow` stays false. -/
def static_checks_java (fs : FS) : Except Crash StaticChecks :=
  match fs.orderProcessorJava with
  | some _ => .error .reError
  | none =>
    let oop : Bool :=
      match fs.orderJava with
      | some s => containsL ("class Order".toList) s && containsL ("total(".toList) s
      | none => false
    .ok ⟨true, false, oop⟩

/-! ## Process runner (`run_cmd`) and the invocation oracle -/

/-- Behaviour of one external invocation: either the child completed with an
exit status and captured stdout/stderr, or it exceeded the timeout. -/
inductive CmdOutcome where
  | completed (code : ℤ) (out err : String)
  | timedOut
deriving DecidableEq, Repr

/-- Embedding of `run_cmd`: on completion returns (returncode, out, err); a
`subprocess.TimeoutExpired` kills the child and raises `CheckError`. -/
def runCmd (o : CmdOutcome) : Except CheckErr (ℤ × String × String) :=
  match o with
  | .completed code out err => .ok (code, out, err)
  | .timedOut => .error .timedOut

/-- Named weights of the rubric (`rubric['weights']`), one integer per
check key. -/
structure Weights where
  functions : ℤ
  control_flow : ℤ
  oop : ℤ
  fileIo : ℤ
  analytics_correctness : ℤ
  error_handling : ℤ
  unit_tests : ℤ
deriving DecidableEq, Repr

/-- The rubric configuration loaded once per run. -/
structure Rubric where
  weights : Weights
  tolFloat : ℚ
  timeoutSeconds : ℤ
deriving DecidableEq, Repr

inductive Lang where
  | python
  | java
deriving DecidableEq, Repr

/-- The complete environment of one grading run: the working directory, the
rubric, the optional `--lang` flag, one oracle per `run_cmd` invocation
site, and the artifacts the graded program writes when its main run
completes (a child killed by the timeout is modelled as writing nothing). -/
structure Env where
  fs : FS
  rubric : Rubric
  langFlag : Option Lang
  /-- outcome of the submission's main run inside `run_program` -/
  runMain : CmdOutcome
  /-- outcome of `javac` inside `run_program` (Java only) -/
  compileMain : CmdOutcome
  /-- outcome of the run inside `error_path_check` -/
  probeRun : CmdOutcome
  /-- outcome of `javac` inside `error_path_check` (Java only) -/
  probeCompile : CmdOutcome
  /-- outcome of the test run inside `run_unit_tests` -/
  testRun : CmdOutcome
  /-- outcome of the test compilation inside `run_unit_tests` (Java only) -/
  testCompile : CmdOutcome
  /-- Contents of `summary.json` as written by a completed main run. -/
  childSummary : Option SummaryFile
  /-- Contents of `high_value_orders.csv` as written by a completed main run. -/
  childCsv : Option (List Char)
deriving DecidableEq, Repr

/-! ## Program executor (`run_program`) -/

/-- Embedding of `run_program`.  Returns the Python result (or the raised
`CheckError`) together with the filesystem as later stages see it.  The
function first removes both output artifacts (`os.remove` guarded by
`exists`, so absence is not an error), then checks for the entry point,
then (for Java) compiles, then runs the submission; only a completed main
run lets the child write fresh artifacts. -/
def run_program (lang : Lang) (env : Env) (fs : FS) :
    Except CheckErr (Bool × String) × FS :=
  let fs1 : FS := { fs with summaryJson := none, highValueCsv := none }
  match lang with
  | .python =>
    if fs1.processOrdersPy.isSome then
      match runCmd env.runMain with
      | .error e => (.error e, fs1)
      | .ok (code, out, err) =>
        (.ok (decide (code = 0), out ++ err),
         { fs1 with summaryJson := env.childSummary, highValueCsv := env.childCsv })
    else (.error (.entryMissing ("process_orders.py")), fs1)
  | .java =>
    if fs1.orderProcessorJava.isSome then
      match runCmd env.compileMain with
      | .error e => (.error e, fs1)
      | .ok (ccode, cout, cerr) =>
        if ccode ≠ 0 then (.ok (false, cout ++ cerr), fs1)
        else
          match runCmd env.runMain with
          | .error e => (.error e, fs1)
          | .ok (code, out, err) =>
            (.ok (decide (code = 0), out ++ err),
             { fs1 with summaryJson := env.childSummary, highValueCsv := env.childCsv })
    else (.error (.entryMissing ("OrderProcessor.java")), fs1)

/-- Rendering `str(e)` of a `CheckError`, as the orchestrator stores it in the logs
(message text abbreviated). -/
def checkErrMsg : CheckErr → String
  | .timedOut => "Timed out running"
  | .entryMissing p => p ++ " not found"

/-- The orchestrator's `try: run_program ... except CheckError`: the raised
error becomes a failed result with the exception text as logs. -/
def runProgramCaught (lang : Lang) (env : Env) (fs : FS) : (Bool × String) × FS :=
  match run_program lang env fs with
  | (.error e, fs2) => ((false, checkErrMsg e), fs2)
  | (.ok r, fs2) => (r, fs2)

/-! ## Output validator (`approx`, `validate_outputs`) -/

/-- Embedding of `approx`: `abs(float(a) - float(b)) <= tol`.  The inputs
are JSON numbers: `float()` of a Python float is the identity and of an int
rounds to the nearest double — both are `fl`, which fixes every
representable value.  The subtraction of the two doubles is correctly
rounded binary64 subtraction, i.e. `fl` of the exact difference; `abs` of a
double and the comparison against the double `tol` are exact. -/
def approx (a b tol : ℚ) : Bool :=
  decide (|fl (fl a - fl b)| ≤ tol)

/-- An entry of the issues mapping: dict key and human-readable description
(dynamic parts of the description strings are elided). -/
abbrev Issue := String × String

/-- The expected header of `high_value_orders.csv`. -/
def expectedHeader : List Char :=
  "order_id,customer_id,category,unit_price,quantity,timestamp".toList

/-- The key-by-key comparison of `orders_per_category` against the expected
mapping: `any(opc.get(k) != v for k, v in expected.items())` — every
expected key must be present with exactly the expected count; extra keys
are tolerated. -/
def opcMatches (opc : List (String × ℤ)) : Bool :=
  opc.lookup ("Books") == some 2 &&
    opc.lookup ("Electronics") == some 1 &&
    opc.lookup ("Toys") == some 1

/-- Embedding of `validate_outputs`.  Faithful to the control flow of the
source: a missing or unparseable `summary.json` returns immediately with
that single issue; otherwise the missing-key issues for the four required
keys are recorded first (in key order), then the per-value issues, then the
`high_value_orders.csv` issues, in the insertion order of the Python dict.
The expected constants are written as the exact decimals `30347/100` and
`7587/100`; `approx` itself rounds them to their binary64 values via `fl`,
exactly as Python parses the literals `303.47` and `75.87` to doubles. -/
def validate_outputs (tol : ℚ) (fs : FS) : List Issue :=
  match fs.summaryJson with
  | none => [("summary.json", "missing")]
  | some .invalid => [("summary.json", "not valid JSON")]
  | some (.parsed s) =>
    let k1 : List Issue :=
      if s.total_revenue = none then [("summary.json:total_revenue", "missing key")] else []
    let k2 : List Issue :=
      if s.average_order_value = none then [("summary.json:average_order_value", "missing key")] else []
    let k3 : List Issue :=
      if s.orders_per_category = none then [("summary.json:orders_per_category", "missing key")] else []
    let k4 : List Issue :=
      if s.top_category_by_revenue = none then [("summary.json:top_category_by_revenue", "missing key")] else []
    let v1 : List Issue :=
      match s.total_revenue with
      | some x => if approx x (30347 / 100) tol then [] else [("total_revenue", "out of tolerance")]
      | none => []
    let v2 : List Issue :=
      match s.average_order_value with
      | some x => if approx x (7587 / 100) tol then [] else [("average_order_value", "out of tolerance")]
      | none => []
    let v3 : List Issue :=
      match s.orders_per_category with
      | some opc => if opcMatches opc then [] else [("orders_per_category", "mismatch")]
      | none => []
    let v4 : List Issue :=
      match s.top_category_by_revenue with
      | some t => if t = "Electronics" then [] else [("top_category_by_revenue", "mismatch")]
      | none => []
    let c : List Issue :=
      match fs.highValueCsv with
      | none => [("high_value_orders.csv", "missing")]
      | some content =>
        if firstLine content = expectedHeader then []
        else [("high_value_orders.csv:header", "wrong header")]
    k1 ++ k2 ++ k3 ++ k4 ++ v1 ++ v2 ++ v3 ++ v4 ++ c

/-! ## Error-path probe and unit-test runner -/

/-- Embedding of `error_path_check`: re-invoke the submission on a
nonexistent input and require a non-zero exit.  For Java the compile result
is discarded, but a timeout in either invocation raises (no handler). -/
def error_path_check (lang : Lang) (env : Env) : Except CheckErr Bool :=
  match lang with
  | .python =>
    match runCmd env.probeRun with
    | .error e => .error e
    | .ok (code, _, _) => .ok (decide (code ≠ 0))
  | .java =>
    match runCmd env.probeCompile with
    | .error e => .error e
    | .ok _ =>
      match runCmd env.probeRun with
      | .error e => .error e
      | .ok (code, _, _) => .ok (decide (code ≠ 0))

/-- Embedding of `run_unit_tests`.  Python: only runs when a `tests`
directory exists, and a timeout raises (no handler on this path).  Java:
when test files are present, the compile-and-run block is wrapped in
`except Exception`, so a timeout is caught and reported as a failed check;
with no recognized test suite the check passes vacuously. -/
def run_unit_tests (lang : Lang) (env : Env) (fs : FS) :
    Except CheckErr (Bool × String) :=
  match lang with
  | .python =>
    if fs.testsDirExists then
      match runCmd env.testRun with
      | .error e => .error e
      | .ok (code, out, err) => .ok (decide (code = 0), out ++ err)
    else .ok (true, "")
  | .java =>
    if fs.javaTestFilesPresent then
      match runCmd env.testCompile with
      | .error _ => .ok (false, "JUnit run failed")
      | .ok _ =>
        match runCmd env.testRun with
        | .error _ => .ok (false, "JUnit run failed")
        | .ok (code, out, err) => .ok (decide (code = 0), out ++ err)
    else .ok (true, "")

/-! ## The pass threshold `int(0.7 * total)`

The orchestrator computes the pass threshold with Python float arithmetic:
the literal `0.7` denotes the IEEE-754 double nearest to 7/10, which is
`6305039478318694 / 2^53` (an exact value strictly below 7/10), the product
with the integer `total` is rounded to the nearest double (ties to even
significand), and `int(...)` truncates toward zero.  The functions below
reproduce that arithmetic exactly over `ℕ`/`ℤ`.  `float(total)` is exact
for `|total| < 2^53` and otherwise itself rounds, which `round53` also
captures; overflow to infinity (beyond `2^1024`) is not modelled, which is
irrelevant for any rubric a grader could load. -/

/-- Round a natural number to 53 significant bits, nearest, ties to even —
the significand rounding of IEEE-754 binary64. -/
def round53 (k : ℕ) : ℕ :=
  let b := bitLen k
  if b ≤ 53 then k
  else
    let s := b - 53
    let q := k / 2 ^ s
    let r := k % 2 ^ s
    let half := 2 ^ (s - 1)
    let q2 := if half < r ∨ (r = half ∧ q % 2 = 1) then q + 1 else q
    q2 * 2 ^ s

/-- The significand of the double `0.7`: `0.7 = pySig07 / 2^53` in IEEE-754
binary64 (7/10 · 2^53 = 6305039478318694.4, rounded to nearest). -/
def pySig07 : ℕ := 6305039478318694

/-- Computes `int(0.7 * n)` for a natural `n`, in exact IEEE-754 binary64
arithmetic: convert `n` to double, multiply by the double `0.7`, round the
product to nearest-even, truncate.  The product of the two significands is
an integer scaled by `2^53`, so rounding the product is `round53` of that
integer; truncation of the non-negative result is division by `2^53`. -/
def pyThresholdNat (n : ℕ) : ℕ :=
  round53 (round53 n * pySig07) / 2 ^ 53

/-- Computes `int(0.7 * n)` for a Python integer `n`.  IEEE rounding and `int`
truncation are both symmetric about zero. -/
def pyThreshold (n : ℤ) : ℤ :=
  if 0 ≤ n then (pyThresholdNat n.toNat : ℤ) else -(pyThresholdNat (-n).toNat : ℤ)

/-! ## Scorer / orchestrator (`main`) -/

/-- Which of the seven checks passed in one run. -/
structure Passes where
  functions : Bool
  control_flow : Bool
  oop : Bool
  fileIo : Bool
  analytics : Bool
  errorHandling : Bool
  unitTests : Bool
deriving DecidableEq, Repr

/-- The score accumulation `score += weights[key] if passed else 0`,
in the order the orchestrator performs it. -/
def scoreOf (w : Weights) (p : Passes) : ℤ :=
  (if p.functions then w.functions else 0) +
    (if p.control_flow then w.control_flow else 0) +
    (if p.oop then w.oop else 0) +
    (if p.fileIo then w.fileIo else 0) +
    (if p.analytics then w.analytics_correctness else 0) +
    (if p.errorHandling then w.error_handling else 0) +
    (if p.unitTests then w.unit_tests else 0)

/-- The total `sum(weights.values())`. -/
def wSum (w : Weights) : ℤ :=
  w.functions + w.control_flow + w.oop + w.fileIo +
    w.analytics_correctness + w.error_handling + w.unit_tests

/-- One per-check record of the report: `{'pass': ..., 'points': ..., 'max': ...}`. -/
structure CheckRecord where
  pass : Bool
  points : ℤ
  max : ℤ
deriving DecidableEq, Repr

def mkRecord (w : ℤ) (p : Bool) : CheckRecord :=
  ⟨p, if p then w else 0, w⟩

/-- The rendered grade report (`details`).  Log fields are elided; the
issues mapping of the analytics check is kept. -/
structure Report where
  lang : Lang
  functionsCheck : CheckRecord
  controlFlowCheck : CheckRecord
  oopCheck : CheckRecord
  fileIoCheck : CheckRecord
  analyticsCheck : CheckRecord
  errorHandlingCheck : CheckRecord
  unitTestsCheck : CheckRecord
  analyticsIssues : List Issue
  score : ℤ
  maxScore : ℤ
  passed : Bool
deriving DecidableEq, Repr

/-- Assembles the report exactly as the orchestrator does: per-check
records from the pass booleans and weights, `score` the weighted sum,
`max_score` the sum of all weights, and
`passed = score >= int(0.7 * total)`. -/
def mkReport (lang : Lang) (w : Weights) (p : Passes) (issues : List Issue) : Report where
  lang := lang
  functionsCheck := mkRecord w.functions p.functions
  controlFlowCheck := mkRecord w.control_flow p.control_flow
  oopCheck := mkRecord w.oop p.oop
  fileIoCheck := mkRecord w.fileIo p.fileIo
  analyticsCheck := mkRecord w.analytics_correctness p.analytics
  errorHandlingCheck := mkRecord w.error_handling p.errorHandling
  unitTestsCheck := mkRecord w.unit_tests p.unitTests
  analyticsIssues := issues
  score := scoreOf w p
  maxScore := wSum w
  passed := decide (pyThreshold (wSum w) ≤ scoreOf w p)

/-- What the run prints: either the minimal language-detection error record
(no score fields), or the full report. -/
inductive Output where
  | errorRecord
  | report (r : Report)
deriving DecidableEq, Repr

def detect_python_files (fs : FS) : Bool :=
  fs.processOrdersPy.isSome || fs.modelsPy.isSome

def detect_java_files (fs : FS) : Bool :=
  fs.orderJava.isSome || fs.orderProcessorJava.isSome

/-- The language the orchestrator works with: the `--lang` flag if given,
else Python markers first, then Java markers, else undetermined. -/
def detectLang (env : Env) : Option Lang :=
  match env.langFlag with
  | some l => some l
  | none =>
    if detect_python_files env.fs then some .python
    else if detect_java_files env.fs then some .java
    else none

/-- The static-check stage as the orchestrator invokes it: the Python
variant cannot raise; the Java variant can (see `static_checks_java`). -/
def staticChecksFor (lang : Lang) (fs : FS) : Except Crash StaticChecks :=
  match lang with
  | .python => .ok (static_checks_python fs)
  | .java => static_checks_java fs

/-- The pipeline after language detection.  `run_program` is wrapped in the
orchestrator's `try/except CheckError`; `error_path_check` and
`run_unit_tests` are not, so a `CheckError` raised there escapes as a
crash. -/
def mainRun (env : Env) (lang : Lang) : Except Crash (Output × ℤ) :=
  match staticChecksFor lang env.fs with
  | .error e => .error e
  | .ok st =>
    let runAndFs := runProgramCaught lang env env.fs
    let fileIoPass := runAndFs.1.1
    let issues := validate_outputs env.rubric.tolFloat runAndFs.2
    match error_path_check lang env with
    | .error e => .error (.checkError e)
    | .ok ehPass =>
      match run_unit_tests lang env env.fs with
      | .error e => .error (.checkError e)
      | .ok (utPass, _) =>
        let p : Passes :=
          ⟨st.functions, st.control_flow, st.oop, fileIoPass, issues.isEmpty, ehPass, utPass⟩
        let r := mkReport lang env.rubric.weights p issues
        .ok (.report r, if r.passed then 0 else 1)

/-- Embedding of the orchestrator `main`: detect the language (an
undetermined language prints the error record and returns exit status 2,
skipping every grading stage), then run the pipeline; the returned integer
is the process exit status (`0` if passed else `1`). -/
def main (env : Env) : Except Crash (Output × ℤ) :=
  match detectLang env with
  | none => .ok (.errorRecord, 2)
  | some lang => mainRun env lang

/-! ## Issue groups of the validator, for the accumulation theorem -/

/-- The missing-key issues of the summary, in the loop's key order. -/
def summaryKeyIssues (s : Summary) : List Issue :=
  (if s.total_revenue = none then [("summary.json:total_revenue", "missing key")] else []) ++
    (if s.average_order_value = none then [("summary.json:average_order_value", "missing key")] else []) ++
    (if s.orders_per_category = none then [("summary.json:orders_per_category", "missing key")] else []) ++
    (if s.top_category_by_revenue = none then [("summary.json:top_category_by_revenue", "missing key")] else [])

/-- The out-of-tolerance / mismatch issues of the summary values, in the
order the validator records them. -/
def summaryValueIssues (tol : ℚ) (s : Summary) : List Issue :=
  (match s.total_revenue with
   | some x => if approx x (30347 / 100) tol then [] else [("total_revenue", "out of tolerance")]
   | none => []) ++
    (match s.average_order_value with
     | some x => if approx x (7587 / 100) tol then [] else [("average_order_value", "out of tolerance")]
     | none => []) ++
    (match s.orders_per_category with
     | some opc => if opcMatches opc then [] else [("orders_per_category", "mismatch")]
     | none => []) ++
    (match s.top_category_by_revenue with
     | some t => if t = "Electronics" then [] else [("top_category_by_revenue", "mismatch")]
     | none => [])

/-- The issues of the high-value-orders artifact. -/
def csvIssues (fs : FS) : List Issue :=
  match fs.highValueCsv with
  | none => [("high_value_orders.csv", "missing")]
  | some content =>
    if firstLine content = expectedHeader then []
    else [("high_value_orders.csv:header", "wrong header")]

/-! ## Concrete environments used by witnesses and counterexamples -/

/-- Empty working directory. -/
def baseFS : FS :=
  { processOrdersPy := none, modelsPy := none, orderProcessorJava := none,
    orderJava := none, summaryJson := none, highValueCsv := none,
    testsDirExists := false, javaTestFilesPresent := false }

/-- A rubric with unit weights. -/
def baseRubric : Rubric :=
  { weights := ⟨1, 1, 1, 1, 1, 1, 1⟩, tolFloat := 1 / 100, timeoutSeconds := 20 }

/-- A neutral environment: empty directory, unit weights, no flag, every
invocation completing. -/
def baseEnv : Env :=
  { fs := baseFS, rubric := baseRubric, langFlag := none,
    runMain := .completed 0 "" "", compileMain := .completed 0 "" "",
    probeRun := .completed 1 "" "", probeCompile := .completed 0 "" "",
    testRun := .completed 0 "" "", testCompile := .completed 0 "" "",
    childSummary := none, childCsv := none }

/-- A fully correct Python submission source. -/
def goodPySrc : List Char :=
  ("def aggregate(rows):\n    for r in rows:\n        pass\n".toList)

/-- A models.py with the required class and method. -/
def goodModelsSrc : List Char :=
  ("class Order:\n    def total(self):\n        return 1\n".toList)

/-- The summary the fixture expects. -/
def goodSummary : Summary :=
  { total_revenue := some (30347 / 100), average_order_value := some (7587 / 100),
    orders_per_category := some [("Books", 2), ("Electronics", 1), ("Toys", 1)],
    top_category_by_revenue := some ("Electronics") }

/-- An environment whose grading run completes: a Python submission passing
the three static checks and the error-path probe, whose main run exits 0
but which writes no artifacts (so the analytics check fails). -/
def pyRunEnv : Env :=
  { baseEnv with
    langFlag := some .python,
    fs := { baseFS with processOrdersPy := some goodPySrc, modelsPy := some goodModelsSrc } }

/-- The report `pyRunEnv` renders: six of seven checks pass. -/
def pyRunReport : Report :=
  mkReport .python baseRubric.weights ⟨true, true, true, true, false, true, true⟩
    [("summary.json", "missing")]

/-! ## C8: tolerance-based comparison

Facts about `bitLen`, `rne` and `fl` needed to evaluate the rounding at
concrete points and to show `fl` fixes the integer range of the grader. -/

theorem bitLenAux_bounds : ∀ (fuel m : ℕ), m ≤ fuel → 0 < m →
    2 ^ (bitLenAux fuel m - 1) ≤ m ∧ m < 2 ^ bitLenAux fuel m := by
  intro fuel
  induction fuel with
  | zero => intro m h0 hm; omega
  | succ f ih =>
    intro m hmf hm
    rw [bitLenAux, if_neg (by omega)]
    by_cases h2 : m / 2 = 0
    · have hm1 : m = 1 := by omega
      subst hm1
      have hz : bitLenAux f 0 = 0 := by cases f <;> simp [bitLenAux]
      rw [hz]
      norm_num
    · have hrec := ih (m / 2) (by omega) (by omega)
      have hB : 1 ≤ bitLenAux f (m / 2) := by
        by_contra hc
        have hb0 : bitLenAux f (m / 2) = 0 := by omega
        rw [hb0] at hrec
        omega
      have hpow : 2 ^ bitLenAux f (m / 2) = 2 * 2 ^ (bitLenAux f (m / 2) - 1) := by
        rw [← pow_succ']
        congr 1
        omega
      have hpow2 : 2 ^ (bitLenAux f (m / 2) + 1) = 2 * 2 ^ bitLenAux f (m / 2) := by
        rw [pow_succ, mul_comm]
      constructor
      · have : bitLenAux f (m / 2) + 1 - 1 = bitLenAux f (m / 2) := by omega
        rw [this]
        omega
      · omega

theorem bitLen_bounds (n : ℕ) (h : 0 < n) :
    2 ^ (bitLen n - 1) ≤ n ∧ n < 2 ^ bitLen n :=
  bitLenAux_bounds n n le_rfl h

theorem bitLen_pos (n : ℕ) (h : 0 < n) : 0 < bitLen n := by
  have hb := (bitLen_bounds n h).2
  by_contra hc
  have h0 : bitLen n = 0 := by omega
  rw [h0] at hb
  omega

theorem bitLen_le_of_lt (n k : ℕ) (h : n < 2 ^ k) : bitLen n ≤ k := by
  rcases Nat.eq_zero_or_pos n with h0 | hpos
  · subst h0
    simp [bitLen, bitLenAux]
  · have hb := (bitLen_bounds n hpos).1
    have hlt : 2 ^ (bitLen n - 1) < 2 ^ k := lt_of_le_of_lt hb h
    have := (Nat.pow_lt_pow_iff_right (by norm_num : 1 < 2)).mp hlt
    have hp := bitLen_pos n hpos
    omega

theorem round53_id (n : ℕ) (h : n < 2 ^ 53) : round53 n = n := by
  have hb : bitLen n ≤ 53 := bitLen_le_of_lt n 53 h
  simp [round53, hb]

theorem bitLen_one : bitLen 1 = 1 := by decide

theorem floorLog2_nat_one (n : ℕ) (h : 0 < n) :
    floorLog2 n 1 = (bitLen n : ℤ) - 1 := by
  have hp := bitLen_pos n h
  have hlow := (bitLen_bounds n h).1
  have ht : (0 : ℤ) ≤ (bitLen n : ℤ) - 1 := by omega
  have htn : ((bitLen n : ℤ) - 1).toNat = bitLen n - 1 := by omega
  simp only [floorLog2, bitLen_one, Nat.cast_one]
  rw [if_pos ht, htn, if_pos (by omega : 1 * 2 ^ (bitLen n - 1) ≤ n)]

theorem rne_one (N : ℕ) : rne N 1 = N := by
  simp [rne]
  omega

theorem rne_pow2 (N s : ℕ) (hs : 0 < s) :
    rne N (2 ^ s) =
      (if 2 ^ (s - 1) < N % 2 ^ s ∨ (N % 2 ^ s = 2 ^ (s - 1) ∧ N / 2 ^ s % 2 = 1)
       then N / 2 ^ s + 1 else N / 2 ^ s) := by
  unfold rne
  have h2 : (2 : ℕ) ^ s = 2 * 2 ^ (s - 1) := by
    rw [← pow_succ']
    congr 1
    omega
  refine if_congr ?_ rfl rfl
  omega

/-- Rounding a non-negative integer value: `fl` on a natural cast agrees
with the 53-bit significand rounding `round53`. -/
theorem fl_natCast (n : ℕ) : fl ((n : ℚ)) = ((round53 n : ℕ) : ℚ) := by
  rcases Nat.eq_zero_or_pos n with h0 | hpos
  · subst h0
    simp [fl, round53, bitLen, bitLenAux]
  · have hnum : ((n : ℚ)).num = (n : ℤ) := Rat.num_natCast n
    have hden : ((n : ℚ)).den = 1 := Rat.den_natCast n
    have hnz : ((n : ℚ)).num ≠ 0 := by
      rw [hnum]
      exact_mod_cast hpos.ne'
    have hsign : (0 : ℤ) ≤ ((n : ℚ)).num := by
      rw [hnum]
      positivity
    have habs : ((n : ℚ)).num.natAbs = n := by
      rw [hnum]
      exact Int.natAbs_ofNat n
    simp only [fl, if_neg hnz, if_pos hsign, habs, hden, floorLog2_nat_one n hpos]
    have hp := bitLen_pos n hpos
    by_cases hL : 52 ≤ (bitLen n : ℤ) - 1
    · rw [if_pos hL]
      by_cases h53 : bitLen n = 53
      · have ht0 : ((bitLen n : ℤ) - 1 - 52).toNat = 0 := by omega
        rw [ht0]
        simp only [round53]
        rw [if_pos (by omega : bitLen n ≤ 53)]
        simp [rne_one]
      · have h54 : 54 ≤ bitLen n := by omega
        have ht : ((bitLen n : ℤ) - 1 - 52).toNat = bitLen n - 53 := by omega
        rw [ht, one_mul, rne_pow2 n (bitLen n - 53) (by omega)]
        simp only [round53]
        rw [if_neg (by omega : ¬ bitLen n ≤ 53)]
    · rw [if_neg hL]
      have hb52 : bitLen n ≤ 52 := by omega
      have ht : (52 - ((bitLen n : ℤ) - 1)).toNat = 53 - bitLen n := by omega
      rw [ht, rne_one]
      simp only [round53]
      rw [if_pos (by omega : bitLen n ≤ 53)]
      push_cast
      rw [mul_div_assoc, div_self (by positivity : ((2 : ℚ)) ^ (53 - bitLen n) ≠ 0),
        mul_one]

/-- Rounding respects negation (IEEE rounding is sign-symmetric). -/
theorem fl_neg (q : ℚ) : fl (-q) = -fl q := by
  by_cases h0 : q.num = 0
  · have hq : q = 0 := Rat.zero_iff_num_zero.mpr h0
    subst hq
    simp [fl]
  · have hnn : (-q).num = -q.num := Rat.neg_num q
    have hnd : (-q).den = q.den := Rat.neg_den q
    have hnz : (-q).num ≠ 0 := by
      rw [hnn]
      exact neg_ne_zero.mpr h0
    simp only [fl, if_neg hnz, if_neg h0, hnn, hnd, Int.natAbs_neg]
    rcases lt_or_gt_of_ne h0 with hneg | hpos
    · rw [if_pos (by omega : (0 : ℤ) ≤ -q.num), if_neg (by omega : ¬ (0 : ℤ) ≤ q.num),
        neg_neg, if_neg (by omega : ¬ -q.num = 0)]
    · rw [if_neg (by omega : ¬ (0 : ℤ) ≤ -q.num), if_pos (by omega : (0 : ℤ) ≤ q.num),
        if_neg (by omega : ¬ -q.num = 0)]

/-- Every integer of magnitude below `2^53` is a binary64 fixed point. -/
theorem fl_intCast_small (z : ℤ) (hz : z.natAbs < 2 ^ 53) :
    fl ((z : ℚ)) = ((z : ℚ)) := by
  obtain ⟨n, rfl | rfl⟩ := z.eq_nat_or_neg
  · rw [Int.cast_natCast, fl_natCast,
      round53_id n (by simpa using hz)]
  · rw [Int.cast_neg, Int.cast_natCast, fl_neg, fl_natCast,
      round53_id n (by simpa using hz)]

/-- Counterexample to C8: at `a = 10^16 + 2`, `b = 1`, `tol = 10^16` (all
three exactly representable doubles) `approx` returns true although
`|a - b| = 10^16 + 1` strictly exceeds `tol`: the binary64 subtraction
rounds `10^16 + 1` down to `10^16` (ties to the even significand), so the
claimed exact-difference iff is false of the program. -/
theorem spec_C8_counterexample :
    approx (10 ^ 16 + 2) 1 (10 ^ 16) = true ∧
      ¬(|(10 ^ 16 + 2 : ℚ) - 1| ≤ (10 ^ 16 : ℚ)) ∧ (0 : ℚ) ≤ (10 ^ 16 : ℚ) := by
  have ha : fl (10 ^ 16 + 2 : ℚ) = (10 ^ 16 + 2 : ℚ) := by
    rw [show (10 ^ 16 + 2 : ℚ) = ((10 ^ 16 + 2 : ℕ) : ℚ) by push_cast; ring,
      fl_natCast, show round53 (10 ^ 16 + 2) = 10 ^ 16 + 2 from by decide]
  have hb : fl (1 : ℚ) = 1 := by
    rw [show (1 : ℚ) = ((1 : ℕ) : ℚ) by push_cast; ring, fl_natCast,
      show round53 1 = 1 from by decide]
  have hd : fl (fl (10 ^ 16 + 2 : ℚ) - fl 1) = (10 ^ 16 : ℚ) := by
    rw [ha, hb,
      show (10 ^ 16 + 2 : ℚ) - 1 = ((10 ^ 16 + 1 : ℕ) : ℚ) by push_cast; ring,
      fl_natCast, show round53 (10 ^ 16 + 1) = 10 ^ 16 from by decide]
    push_cast
    ring
  have hiff : approx (10 ^ 16 + 2) 1 (10 ^ 16) = true ↔
      |fl (fl (10 ^ 16 + 2 : ℚ) - fl 1)| ≤ (10 ^ 16 : ℚ) := by
    simp [approx]
  refine ⟨?_, by norm_num, by norm_num⟩
  rw [hiff, hd]
  norm_num

/-- C8 as amended: `approx a b tol` is true iff `|a ⊖ b| ≤ tol`, where
`a ⊖ b = fl (fl a - fl b)` is the difference as the program computes it in
binary64 — true when that machine difference equals `tol` exactly and false
whenever it strictly exceeds `tol`.  The rounded difference coincides with
the exact one on the grader's working range: every integer of magnitude
below `2^53` is a fixed point of `fl`. -/
theorem spec_C8_amended (a b tol : ℚ) (_htol : 0 ≤ tol) :
    (approx a b tol = true ↔ |fl (fl a - fl b)| ≤ tol) ∧
      (|fl (fl a - fl b)| = tol → approx a b tol = true) ∧
      (tol < |fl (fl a - fl b)| → approx a b tol = false) ∧
      (∀ z : ℤ, z.natAbs < 2 ^ 53 → fl ((z : ℚ)) = ((z : ℚ))) := by
  refine ⟨by simp [approx], fun h => by simp [approx, h], fun h => ?_,
    fun z hz => fl_intCast_small z hz⟩
  simp [approx]
  exact h

/-- Witness for C8 (amended) at the machine-difference boundary, plus the
fixed-point fact at a concrete in-range integer. -/
theorem spec_C8_witness :
    (approx (30347 / 100) (30337 / 100) (10 / 100) = true ↔
        |fl (fl (30347 / 100) - fl (30337 / 100))| ≤ 10 / 100) ∧
      fl ((303 : ℤ) : ℚ) = ((303 : ℤ) : ℚ) :=
  ⟨(spec_C8_amended (30347 / 100) (30337 / 100) (10 / 100) (by norm_num)).1,
    (spec_C8_amended (30347 / 100) (30337 / 100) (10 / 100) (by norm_num)).2.2.2
      303 (by norm_num)⟩

/-! ## C10: Python marker detection takes precedence -/

/-- C10: with no `--lang` flag and both languages' marker files present,
the grader selects Python — Python detection is evaluated first. -/
theorem spec_C10 (env : Env) (hflag : env.langFlag = none)
    (hpy : detect_python_files env.fs = true)
    (_hjv : detect_java_files env.fs = true) :
    detectLang env = some Lang.python := by
  simp [detectLang, hflag, hpy]

/-- Environment with marker files of both languages and no `--lang` flag. -/
def bothMarkersFS : FS :=
  { baseFS with
    processOrdersPy := some goodPySrc
    orderJava := some ("class Order j".toList)
    orderProcessorJava := some ("class OrderProcessor j".toList) }

def bothMarkersEnv : Env := { baseEnv with fs := bothMarkersFS }

/-- Witness for C10 at a directory holding both `process_orders.py` and the
two Java files. -/
theorem spec_C10_witness : detectLang bothMarkersEnv = some Lang.python :=
  spec_C10 bothMarkersEnv rfl (by decide) (by decide)

/-! ## C5: static-check defaults on absent files -/

/-- Counterexample to C5: on an empty working directory the Java static
check does not make every predicate false — `functions` is `true` (the
Python dict is initialised with `'functions': True` and never updated). -/
theorem spec_C5_counterexample :
    static_checks_java baseFS = Except.ok ⟨true, false, false⟩ ∧
      ¬(∀ st : StaticChecks, static_checks_java baseFS = Except.ok st →
          st.functions = false) := by
  refine ⟨rfl, fun h => ?_⟩
  have := h ⟨true, false, false⟩ rfl
  simp at this

/-- C5 as amended: for Python all three predicates are false when the file
they inspect is absent; for Java, `control_flow` and `oop` are false when
their files are absent, but `functions` is unconditionally true whenever
the check returns at all. -/
theorem spec_C5_amended (fs : FS) :
    (fs.processOrdersPy = none →
        (static_checks_python fs).functions = false ∧
          (static_checks_python fs).control_flow = false) ∧
      (fs.modelsPy = none → (static_checks_python fs).oop = false) ∧
      (∀ st, static_checks_java fs = Except.ok st → st.functions = true) ∧
      (fs.orderProcessorJava = none → fs.orderJava = none →
        static_checks_java fs = Except.ok ⟨true, false, false⟩) := by
  refine ⟨fun h => ?_, fun h => ?_, fun st h => ?_, fun h1 h2 => ?_⟩
  · simp [static_checks_python, h]
  · simp [static_checks_python, h]
  · cases hop : fs.orderProcessorJava with
    | some v => simp [static_checks_java, hop] at h
    | none =>
      simp [static_checks_java, hop] at h
      cases h
      rfl
  · simp [static_checks_java, h1, h2]

/-- Witness for C5 (amended) on the empty working directory. -/
theorem spec_C5_witness :
    ((static_checks_python baseFS).functions = false ∧
        (static_checks_python baseFS).control_flow = false) ∧
      (static_checks_python baseFS).oop = false ∧
      static_checks_java baseFS = Except.ok ⟨true, false, false⟩ :=
  ⟨(spec_C5_amended baseFS).1 rfl, (spec_C5_amended baseFS).2.1 rfl,
    (spec_C5_amended baseFS).2.2.2 rfl rfl⟩

/-! ## C6: the control-flow predicate -/

/-- A Java source with a genuine `for (` loop (no braces needed for the
point being made: any present file triggers the crash). -/
def javaForSrc : List Char :=
  ("class OrderProcessor x; for (int i = 0; i < 3; i++) t += i;".toList)

def javaForFS : FS := { baseFS with orderProcessorJava := some javaForSrc }

def pyForFS : FS :=
  { baseFS with processOrdersPy := some ("for row in rows:\n    t = 1\n".toList) }

def pyPlainFS : FS :=
  { baseFS with processOrdersPy := some ("x = 1\ny = 2\n".toList) }

/-- C6 fails on the Java side: with `OrderProcessor.java` present and
containing a `for (` construct, the static check does not compute a
`control_flow` boolean at all — the malformed regex pattern (raw string
`r"for\\s*\\(|..."`, three unbalanced open-parentheses) raises `re.error`
and the grader crashes.  On the Python side the behaviour is as claimed:
`control_flow` is true exactly when a keyword followed by whitespace
occurs. -/
theorem spec_C6_java_regex_crash :
    static_checks_java javaForFS = Except.error Crash.reError ∧
      (static_checks_python pyForFS).control_flow = true ∧
      (static_checks_python pyPlainFS).control_flow = false :=
  ⟨rfl, by decide, by decide⟩

/-! ## C7: program-executor cleanup and error behaviour -/

def entryOnlyFS : FS :=
  { baseFS with processOrdersPy := some ("def parse_args():\n    return 0\n".toList) }

def timeoutMainEnv : Env := { baseEnv with runMain := .timedOut }

/-- Counterexample to C7: `run_program` raises `CheckError` not *exactly*
when the entry point is absent — here `process_orders.py` is present, yet
the raised timeout of the main run is a `CheckError` too (`run_cmd` raises
it).  The distinguished setup error and the timeout are however different
values. -/
theorem spec_C7_counterexample :
    entryOnlyFS.processOrdersPy.isSome = true ∧
      (run_program .python timeoutMainEnv entryOnlyFS).1 = Except.error CheckErr.timedOut ∧
      CheckErr.timedOut ≠ CheckErr.entryMissing ("process_orders.py") := by
  refine ⟨rfl, rfl, by decide⟩

/-- C7 as amended: `run_program` first deletes both pre-existing output
artifacts (their presence or absence never affects the outcome); it raises
the distinguished setup error exactly when the language's entry point is
absent; it also raises `CheckError` when a child invocation times out; and
a Java compilation failure is returned as a failed execution carrying the
compiler diagnostics, not raised. -/
theorem spec_C7_amended (env : Env) (fs : FS) :
    (∀ lang s c, run_program lang env { fs with summaryJson := s, highValueCsv := c } =
        run_program lang env fs) ∧
      ((run_program .python env fs).1 = Except.error (CheckErr.entryMissing ("process_orders.py")) ↔
        fs.processOrdersPy = none) ∧
      ((run_program .java env fs).1 = Except.error (CheckErr.entryMissing ("OrderProcessor.java")) ↔
        fs.orderProcessorJava = none) ∧
      (∀ cc co ce, fs.orderProcessorJava.isSome = true →
        env.compileMain = CmdOutcome.completed cc co ce → cc ≠ 0 →
        (run_program .java env fs).1 = Except.ok (false, co ++ ce)) ∧
      (fs.processOrdersPy.isSome = true → env.runMain = CmdOutcome.timedOut →
        (run_program .python env fs).1 = Except.error CheckErr.timedOut) := by
  refine ⟨fun lang s c => ?_, ?_, ?_, fun cc co ce hop hcm hcc => ?_, fun hpo hrm => ?_⟩
  · cases lang <;> simp [run_program]
  · cases hpo : fs.processOrdersPy with
    | none => simp [run_program, runCmd, hpo]
    | some v =>
      cases hrm : env.runMain <;> simp [run_program, runCmd, hpo, hrm]
  · cases hop : fs.orderProcessorJava with
    | none => simp [run_program, runCmd, hop]
    | some v =>
      cases hcm : env.compileMain with
      | timedOut => simp [run_program, runCmd, hop, hcm]
      | completed cc co ce =>
        by_cases hcc : cc = 0
        · cases hrm : env.runMain <;>
            simp [run_program, runCmd, hop, hcm, hcc, hrm]
        · simp [run_program, runCmd, hop, hcm, hcc]
  · cases hopEq : fs.orderProcessorJava with
    | none => rw [hopEq] at hop; simp at hop
    | some v => simp [run_program, runCmd, hopEq, hcm, hcc]
  · cases hpoEq : fs.processOrdersPy with
    | none => rw [hpoEq] at hpo; simp at hpo
    | some v => simp [run_program, runCmd, hpoEq, hrm]

/-- Environment whose Java compilation fails with diagnostics. -/
def javacFailEnv : Env :=
  { baseEnv with compileMain := .completed 2 "javac diag out" "javac diag err" }

/-- Witness for C7 (amended): the setup error on an empty directory, a Java
compile failure returned (not raised) with its diagnostics, and insensitivity
to pre-existing artifacts. -/
theorem spec_C7_witness :
    (run_program .python baseEnv baseFS).1 =
        Except.error (CheckErr.entryMissing ("process_orders.py")) ∧
      (run_program .java javacFailEnv javaForFS).1 =
        Except.ok (false, "javac diag out" ++ "javac diag err") ∧
      run_program .python baseEnv
          { baseFS with summaryJson := some .invalid, highValueCsv := some [] } =
        run_program .python baseEnv baseFS :=
  ⟨(spec_C7_amended baseEnv baseFS).2.1.mpr rfl,
    (spec_C7_amended javacFailEnv javaForFS).2.2.2.1 2 "javac diag out" "javac diag err"
      (by decide) rfl (by decide),
    (spec_C7_amended baseEnv baseFS).1 .python (some .invalid) (some [])⟩

/-! ## The shape of every completed grading run -/

/-- Helper: whenever `main` renders a full report, that report is
`mkReport` of the detected language, the rubric weights, the seven stage
outcomes and the validator's issues, and the returned exit status is
`0` if `passed` else `1`. -/
theorem main_report_shape (env : Env) (r : Report) (ec : ℤ)
    (h : main env = .ok (.report r, ec)) :
    ∃ (lang : Lang) (st : StaticChecks) (ehPass utPass : Bool),
      r = mkReport lang env.rubric.weights
          ⟨st.functions, st.control_flow, st.oop,
            (runProgramCaught lang env env.fs).1.1,
            (validate_outputs env.rubric.tolFloat (runProgramCaught lang env env.fs).2).isEmpty,
            ehPass, utPass⟩
          (validate_outputs env.rubric.tolFloat (runProgramCaught lang env env.fs).2) ∧
        ec = if r.passed = true then 0 else 1 := by
  cases hdet : detectLang env with
  | none =>
    have h2 : (Except.ok (Output.errorRecord, (2 : ℤ)) : Except Crash (Output × ℤ)) =
        Except.ok (Output.report r, ec) := by
      rw [← h]; unfold main; rw [hdet]
    simp at h2
  | some lang =>
    have h2 : mainRun env lang = Except.ok (Output.report r, ec) := by
      rw [← h]; unfold main; rw [hdet]
    unfold mainRun at h2
    cases hst : staticChecksFor lang env.fs with
    | error e => rw [hst] at h2; simp at h2
    | ok st =>
      rw [hst] at h2
      cases heh : error_path_check lang env with
      | error e => rw [heh] at h2; simp at h2
      | ok ehPass =>
        rw [heh] at h2
        cases hut : run_unit_tests lang env env.fs with
        | error e => rw [hut] at h2; simp at h2
        | ok utRes =>
          obtain ⟨utPass, utLogs⟩ := utRes
          rw [hut] at h2
          simp only [Except.ok.injEq, Prod.mk.injEq, Output.report.injEq] at h2
          refine ⟨lang, st, ehPass, utPass, h2.1.symm, ?_⟩
          rw [← h2.1]
          exact h2.2.symm

/-! ## C3: issue accumulation in the validator -/

/-- Counterexample to C3: with both required artifacts missing, the
validator returns after recording only the `summary.json` issue — the
early `return issues` short-circuits, so no `high_value_orders.csv` entry
is ever produced. -/
theorem spec_C3_counterexample :
    validate_outputs (1 / 100) baseFS = [("summary.json", "missing")] ∧
      ((validate_outputs (1 / 100) baseFS).all
          fun i => i.1 != "high_value_orders.csv") = true ∧
      (validate_outputs (1 / 100) baseFS).length = 1 := by
  have hv : validate_outputs (1 / 100) baseFS = [("summary.json", "missing")] := rfl
  refine ⟨hv, by rw [hv]; rfl, by rw [hv]; rfl⟩

/-- C3 as amended: a missing or unparseable `summary.json` short-circuits
the validator to that single issue; otherwise every remaining issue is
accumulated — the result is exactly the concatenation of the missing-key
issues, the value issues and the csv issues, none suppressing another —
and in the rendered report the analytics check passes iff the recorded
issues mapping is empty. -/
theorem spec_C3_amended (tol : ℚ) (fs : FS) :
    (fs.summaryJson = none → validate_outputs tol fs = [("summary.json", "missing")]) ∧
      (fs.summaryJson = some .invalid →
        validate_outputs tol fs = [("summary.json", "not valid JSON")]) ∧
      (∀ s, fs.summaryJson = some (.parsed s) →
        validate_outputs tol fs =
          summaryKeyIssues s ++ summaryValueIssues tol s ++ csvIssues fs) ∧
      (∀ (env : Env) (r : Report) (ec : ℤ), main env = .ok (.report r, ec) →
        (r.analyticsCheck.pass = true ↔ r.analyticsIssues = [])) := by
  refine ⟨fun h => by simp [validate_outputs, h],
    fun h => by simp [validate_outputs, h], fun s h => ?_, fun env r ec h => ?_⟩
  · simp only [validate_outputs, h, summaryKeyIssues, summaryValueIssues, csvIssues,
      List.append_assoc]
  · obtain ⟨lang, st, ehPass, utPass, hr, hec⟩ := main_report_shape env r ec h
    subst hr
    simp [mkReport, mkRecord, List.isEmpty_iff]

/-- A directory whose summary parses but is missing every key, and whose
csv artifact is absent: both issue groups appear, nothing short-circuits. -/
def emptySummaryFS : FS :=
  { baseFS with summaryJson := some (.parsed ⟨none, none, none, none⟩) }

/-- Witness for C3 (amended), discharging each branch at a concrete
input: the short-circuit on a missing summary, the full concatenation on a
parsed summary, and the analytics-pass link on a completed run. -/
theorem spec_C3_witness :
    validate_outputs (1 / 100) baseFS = [("summary.json", "missing")] ∧
      validate_outputs (1 / 100) emptySummaryFS =
        summaryKeyIssues ⟨none, none, none, none⟩ ++
          summaryValueIssues (1 / 100) ⟨none, none, none, none⟩ ++ csvIssues emptySummaryFS ∧
      (pyRunReport.analyticsCheck.pass = true ↔ pyRunReport.analyticsIssues = []) :=
  ⟨(spec_C3_amended (1 / 100) baseFS).1 rfl,
    (spec_C3_amended (1 / 100) emptySummaryFS).2.2.1 ⟨none, none, none, none⟩ rfl,
    (spec_C3_amended (1 / 100) baseFS).2.2.2 pyRunEnv pyRunReport 0 (by rfl)⟩

/-! ## C1: the weighted score -/

theorem ite_weight_bounds (b : Bool) (w : ℤ) (hw : 0 ≤ w) :
    0 ≤ (if b = true then w else 0) ∧ (if b = true then w else 0) ≤ w := by
  cases b <;> simp [hw]

theorem scoreOf_bounds (w : Weights) (p : Passes)
    (hw : 0 ≤ w.functions ∧ 0 ≤ w.control_flow ∧ 0 ≤ w.oop ∧ 0 ≤ w.fileIo ∧
      0 ≤ w.analytics_correctness ∧ 0 ≤ w.error_handling ∧ 0 ≤ w.unit_tests) :
    0 ≤ scoreOf w p ∧ scoreOf w p ≤ wSum w := by
  obtain ⟨h1, h2, h3, h4, h5, h6, h7⟩ := hw
  have b1 := ite_weight_bounds p.functions w.functions h1
  have b2 := ite_weight_bounds p.control_flow w.control_flow h2
  have b3 := ite_weight_bounds p.oop w.oop h3
  have b4 := ite_weight_bounds p.fileIo w.fileIo h4
  have b5 := ite_weight_bounds p.analytics w.analytics_correctness h5
  have b6 := ite_weight_bounds p.errorHandling w.error_handling h6
  have b7 := ite_weight_bounds p.unitTests w.unit_tests h7
  unfold scoreOf wSum
  constructor <;>
    linarith [b1.1, b1.2, b2.1, b2.2, b3.1, b3.2, b4.1, b4.2, b5.1, b5.2,
      b6.1, b6.2, b7.1, b7.2]

/-- C1: in every rendered report, the final score is the sum of the
weights of exactly the checks recorded as passing (each check record's
`max` is the rubric weight of that check), `max_score` is the sum of all
seven weights, and with non-negative weights `0 ≤ score ≤ max_score`. -/
theorem spec_C1 (env : Env) (r : Report) (ec : ℤ)
    (hw : 0 ≤ env.rubric.weights.functions ∧ 0 ≤ env.rubric.weights.control_flow ∧
      0 ≤ env.rubric.weights.oop ∧ 0 ≤ env.rubric.weights.fileIo ∧
      0 ≤ env.rubric.weights.analytics_correctness ∧
      0 ≤ env.rubric.weights.error_handling ∧ 0 ≤ env.rubric.weights.unit_tests)
    (h : main env = .ok (.report r, ec)) :
    r.score =
        (if r.functionsCheck.pass then r.functionsCheck.max else 0) +
          (if r.controlFlowCheck.pass then r.controlFlowCheck.max else 0) +
          (if r.oopCheck.pass then r.oopCheck.max else 0) +
          (if r.fileIoCheck.pass then r.fileIoCheck.max else 0) +
          (if r.analyticsCheck.pass then r.analyticsCheck.max else 0) +
          (if r.errorHandlingCheck.pass then r.errorHandlingCheck.max else 0) +
          (if r.unitTestsCheck.pass then r.unitTestsCheck.max else 0) ∧
      r.functionsCheck.max = env.rubric.weights.functions ∧
      r.controlFlowCheck.max = env.rubric.weights.control_flow ∧
      r.oopCheck.max = env.rubric.weights.oop ∧
      r.fileIoCheck.max = env.rubric.weights.fileIo ∧
      r.analyticsCheck.max = env.rubric.weights.analytics_correctness ∧
      r.errorHandlingCheck.max = env.rubric.weights.error_handling ∧
      r.unitTestsCheck.max = env.rubric.weights.unit_tests ∧
      r.maxScore = r.functionsCheck.max + r.controlFlowCheck.max + r.oopCheck.max +
        r.fileIoCheck.max + r.analyticsCheck.max + r.errorHandlingCheck.max +
        r.unitTestsCheck.max ∧
      0 ≤ r.score ∧ r.score ≤ r.maxScore := by
  obtain ⟨lang, st, ehPass, utPass, hr, hec⟩ := main_report_shape env r ec h
  subst hr
  have hb := scoreOf_bounds env.rubric.weights
    ⟨st.functions, st.control_flow, st.oop,
      (runProgramCaught lang env env.fs).1.1,
      (validate_outputs env.rubric.tolFloat (runProgramCaught lang env env.fs).2).isEmpty,
      ehPass, utPass⟩ hw
  exact ⟨rfl, rfl, rfl, rfl, rfl, rfl, rfl, rfl, rfl, hb.1, hb.2⟩

/-- Witness for C1 on a completed unit-weight run. -/
theorem spec_C1_witness :
    (0 ≤ pyRunEnv.rubric.weights.functions ∧ 0 ≤ pyRunEnv.rubric.weights.control_flow ∧
        0 ≤ pyRunEnv.rubric.weights.oop ∧ 0 ≤ pyRunEnv.rubric.weights.fileIo ∧
        0 ≤ pyRunEnv.rubric.weights.analytics_correctness ∧
        0 ≤ pyRunEnv.rubric.weights.error_handling ∧
        0 ≤ pyRunEnv.rubric.weights.unit_tests) ∧
      0 ≤ pyRunReport.score ∧ pyRunReport.score ≤ pyRunReport.maxScore := by
  have hc := spec_C1 pyRunEnv pyRunReport 0 (by decide) (by rfl)
  exact ⟨by decide, hc.2.2.2.2.2.2.2.2.2⟩

/-! ## C2: the pass threshold -/

/-- The rubric weights of the threshold counterexample: total 90. -/
def w90 : Weights := ⟨62, 28, 0, 0, 0, 0, 0⟩

def env90 : Env :=
  { baseEnv with
    rubric := { weights := w90, tolFloat := 1 / 100, timeoutSeconds := 20 },
    langFlag := some .python,
    fs := { baseFS with
            processOrdersPy := some ("def aggregate(rows):\n    return rows\n".toList) },
    runMain := .completed 1 "" "" }

def report90 : Report :=
  mkReport .python w90 ⟨true, false, false, false, false, true, true⟩
    [("summary.json", "missing")]

/-- Counterexample to C2: with `max_score = 90` the code's threshold is
`int(0.7 * 90) = 62` — the double product `0.7 * 90` is
`62.99999999999999`, strictly below the exact 63 — so a report with
`score = 62` is `passed`, while `floor(0.70 * max_score) = 63` would
reject it.  The claim's iff with the exact floor threshold is false. -/
theorem spec_C2_counterexample :
    main env90 = .ok (.report report90, 0) ∧
      report90.passed = true ∧ report90.score = 62 ∧ report90.maxScore = 90 ∧
      7 * report90.maxScore / 10 = 63 ∧ ¬(63 ≤ report90.score) := by
  refine ⟨rfl, rfl, rfl, rfl, by decide, by decide⟩

/-- C2 as amended: `passed` is true iff the score is at least
`int(0.7 * max_score)` computed in IEEE-754 double arithmetic
(`pyThreshold`).  That threshold agrees with `floor(0.70 * max_score)` for
most totals but is one less for totals such as 90 where the rounded double
product dips below the exact value. -/
theorem spec_C2_amended (env : Env) (r : Report) (ec : ℤ)
    (h : main env = .ok (.report r, ec)) :
    r.passed = true ↔ pyThreshold r.maxScore ≤ r.score := by
  obtain ⟨lang, st, ehPass, utPass, hr, hec⟩ := main_report_shape env r ec h
  subst hr
  simp [mkReport]

/-- Witness for C2 (amended) on a completed run. -/
theorem spec_C2_witness :
    pyRunReport.passed = true ↔ pyThreshold pyRunReport.maxScore ≤ pyRunReport.score :=
  spec_C2_amended pyRunEnv pyRunReport 0 (by rfl)

/-! ## C9: exit statuses -/

theorem mainRun_no_errorRecord (env : Env) (lang : Lang) (ec : ℤ)
    (h : mainRun env lang = .ok (.errorRecord, ec)) : False := by
  unfold mainRun at h
  cases hst : staticChecksFor lang env.fs with
  | error e => rw [hst] at h; simp at h
  | ok st =>
    rw [hst] at h
    cases heh : error_path_check lang env with
    | error e => rw [heh] at h; simp at h
    | ok ehPass =>
      rw [heh] at h
      cases hut : run_unit_tests lang env env.fs with
      | error e => rw [hut] at h; simp at h
      | ok utRes =>
        obtain ⟨utPass, utLogs⟩ := utRes
        rw [hut] at h
        simp at h

/-- C9: when a full report is rendered the process exit status is 0 if
`passed` else 1; the minimal error record is only ever emitted with exit
status 2; and an undetermined language (no flag, no markers) yields
exactly that error record and status 2, with no report. -/
theorem spec_C9 (env : Env) :
    (∀ (r : Report) (ec : ℤ), main env = .ok (.report r, ec) →
        ec = if r.passed = true then 0 else 1) ∧
      (∀ ec : ℤ, main env = .ok (.errorRecord, ec) → ec = 2) ∧
      (env.langFlag = none → detect_python_files env.fs = false →
        detect_java_files env.fs = false → main env = .ok (.errorRecord, 2)) := by
  refine ⟨fun r ec h => ?_, fun ec h => ?_, fun h1 h2 h3 => ?_⟩
  · obtain ⟨_, _, _, _, _, hec⟩ := main_report_shape env r ec h
    exact hec
  · cases hdet : detectLang env with
    | none =>
      have h2 : (Except.ok (Output.errorRecord, (2 : ℤ)) : Except Crash (Output × ℤ)) =
          Except.ok (Output.errorRecord, ec) := by
        rw [← h]; unfold main; rw [hdet]
      simp at h2
      exact h2.symm
    | some lang =>
      have h2 : mainRun env lang = Except.ok (Output.errorRecord, ec) := by
        rw [← h]; unfold main; rw [hdet]
      exact absurd h2 (fun hc => mainRun_no_errorRecord env lang ec hc)
  · have hdet : detectLang env = none := by simp [detectLang, h1, h2, h3]
    unfold main
    rw [hdet]

/-- Witness for C9: the undetermined case at an empty directory, and the
report case of a completed run. -/
theorem spec_C9_witness :
    main baseEnv = .ok (.errorRecord, 2) ∧
      (0 : ℤ) = if pyRunReport.passed = true then 0 else 1 :=
  ⟨(spec_C9 baseEnv).2.2 rfl (by decide) (by decide),
    (spec_C9 pyRunEnv).1 pyRunReport 0 (by rfl)⟩

/-! ## C4: stage independence and timeouts -/

def probeTimeoutEnv : Env :=
  { baseEnv with langFlag := some .python, fs := entryOnlyFS, probeRun := .timedOut }

def testsTimeoutEnv : Env :=
  { baseEnv with
    langFlag := some .python
    fs := { entryOnlyFS with testsDirExists := true }
    testRun := .timedOut }

def runTimeoutEnv : Env :=
  { baseEnv with langFlag := some .python, fs := entryOnlyFS, runMain := .timedOut }

def runTimeoutReport : Report :=
  mkReport .python baseRubric.weights ⟨true, false, false, false, false, true, true⟩
    [("summary.json", "missing")]

/-- C4 fails on the code: a timeout in the program-execution stage is
indeed caught and recorded as a failed `file_io` check with the pipeline
completing (third and fourth conjuncts), but a timeout in the error-path
probe, or in the Python unit-test run, raises `CheckError` with no handler
in `main` — the grader crashes with no report at all (first and second
conjuncts). -/
theorem spec_C4_timeout_crash :
    main probeTimeoutEnv = .error (.checkError .timedOut) ∧
      main testsTimeoutEnv = .error (.checkError .timedOut) ∧
      main runTimeoutEnv = .ok (.report runTimeoutReport, 1) ∧
      runTimeoutReport.fileIoCheck.pass = false :=
  ⟨rfl, rfl, rfl, rfl⟩

end Autograder
